import Mathlib

/-!
Verification of the `dashboard-client` repository's view-model and API-wrapper
logic, shallowly embedded in Lean 4.

Strings are modelled by Lean `String` and character-level operations; the
JavaScript string methods used by the sources (`toLowerCase`, `toUpperCase`,
`replace` with the concrete regexes appearing in the code) act on the ASCII
character ranges that the modelled data actually uses, and the embedding
performs the corresponding ASCII transformations character by character.

JavaScript timestamps are modelled by an abstract environment `JsEnv`:
`Date.parse` becomes `parse : String → Option Int` (`none` models `NaN`),
`toISOString`-based formatting becomes `isoFmt : Int → String × String`, and
`toLocaleString` becomes `locFmt : String → String`.  Theorems quantify over
the environment, so they hold for the real JavaScript date functions in
particular; concrete counterexamples use environments that agree with
JavaScript on every string they are applied to.

`Array.prototype.sort` with the comparator `(a, b) => key(a) - key(b)` is
modelled by the stable `List.mergeSort` on the corresponding `≤` test
(ECMAScript sorts are stable).  When the comparator would return `NaN`
(an unparseable timestamp), ECMAScript leaves the relative order
implementation-defined; the model maps an unparseable key to `0`.  No theorem
below depends on that choice: every statement either assumes the relevant
timestamps parse or handles lists with at most one element.
-/

namespace Dash

/-! ## Character-level string operations -/

/-- Boolean prefix test on character lists (model of a `^...` regex match). -/
def listIsPre : List Char → List Char → Bool
  | [], _ => true
  | _ :: _, [] => false
  | a :: as, b :: bs => a == b && listIsPre as bs

/-- Boolean substring test on character lists (model of `String.prototype.includes`). -/
def containsSub : List Char → List Char → Bool
  | pat, [] => listIsPre pat []
  | pat, c :: rest => listIsPre pat (c :: rest) || containsSub pat rest

/-- `hasSubstr pat s` holds when `pat` occurs contiguously inside `s`. -/
def hasSubstr (pat s : String) : Bool := containsSub pat.data s.data

/-- Model of `s.replace(/^PRE/, '')`: strip `pre` when it is a leading prefix. -/
def stripLeading (pre s : String) : String :=
  if listIsPre pre.data s.data then ⟨s.data.drop pre.data.length⟩ else s

/-- Model of `s.toLowerCase()` on the ASCII range. -/
def jsToLower (s : String) : String := ⟨s.data.map Char.toLower⟩

/-- Model of `s.replace(/_/g, ' ')`. -/
def underscoresToSpaces (s : String) : String :=
  ⟨s.data.map (fun c => if c = '_' then ' ' else c)⟩

/-- A JavaScript `\w` word character: ASCII alphanumeric or underscore. -/
def isWordChar (c : Char) : Bool := c.isAlphanum || c == '_'

/-- Model of `s.replace(/^\w/, (c) => c.toUpperCase())`. -/
def capitalizeFirstWordChar (s : String) : String :=
  match s.data with
  | [] => s
  | c :: cs => if isWordChar c then ⟨c.toUpper :: cs⟩ else s

/-- Helper for `formatLabel`: uppercase every non-whitespace character that
follows the start of the string or a whitespace character (the
`/(^|\s)\S/g` replacement in `CargoDetail.tsx`). -/
def capWordsAux : Bool → List Char → List Char
  | _, [] => []
  | atStart, c :: cs =>
    if c.isWhitespace then c :: capWordsAux true cs
    else (if atStart then c.toUpper else c) :: capWordsAux false cs

/-- `formatLabel` from `CargoDetail.tsx`: underscores to spaces, lowercase,
then capitalize the first character of every word. -/
def formatLabel (value : String) : String :=
  ⟨capWordsAux true (jsToLower (underscoresToSpaces value)).data⟩

/-- JavaScript truthiness of a nullable string: `null`/`undefined` and `""`
are falsy. -/
def truthyOpt : Option String → Bool
  | none => false
  | some s => !(s == "")

/-! ## The JavaScript date environment -/

/-- Abstract interface to the JavaScript date functions used by the sources.
`parse s = none` models `Number.isNaN(Date.parse(s))`. -/
structure JsEnv where
  parse : String → Option Int
  isoFmt : Int → String × String
  locFmt : String → String

/-- The integer sort key of a timestamp string; an unparseable timestamp is
mapped to `0` (see the module comment: no theorem depends on this choice). -/
def parseKey (parse : String → Option Int) (s : String) : Int :=
  (parse s).getD 0

/-- Insert `x` into `l` after every element with a strictly smaller key
(so an element inserted earlier in the original order stays first among
equal keys). -/
def insertBy {α : Type} (key : α → Int) (x : α) : List α → List α
  | [] => [x]
  | y :: ys => if key y < key x then y :: insertBy key x ys else x :: y :: ys

/-- Stable ascending sort by an integer key: model of
`xs.slice().sort((a, b) => key(a) - key(b))` (ECMAScript sorts are stable,
and a stable comparator sort is uniquely determined by the key). -/
def sortAsc {α : Type} (key : α → Int) : List α → List α
  | [] => []
  | x :: xs => insertBy key x (sortAsc key xs)

/-- Insert `x` into `l` after every element with a strictly larger key. -/
def insertByDesc {α : Type} (key : α → Int) (x : α) : List α → List α
  | [] => [x]
  | y :: ys => if key x < key y then y :: insertByDesc key x ys else x :: y :: ys

/-- Stable descending sort by an integer key: model of
`xs.slice().sort((a, b) => key(b) - key(a))`. -/
def sortDesc {α : Type} (key : α → Int) : List α → List α
  | [] => []
  | x :: xs => insertByDesc key x (sortDesc key xs)

/-! ## Data model (`src/app/api/client.ts`) -/

/-- One record of `ClientCargoDetail.documents`. -/
structure CargoDocument where
  id : String
  document_type : String
  status : String
  drive_url : Option String
  uploaded_at : Option String
  verified_at : Option String
deriving DecidableEq

/-- The `cargo` record of `ClientCargoDetail`. -/
structure CargoInfo where
  cargo_id : String
  client_id : String
  container_count : Nat
  expected_arrival_date : String
  eta : String
  created_at : String
deriving DecidableEq

/-- The slice of `ClientCargoDetail` used by the derived timeline: the cargo
record and the document list.  (The `projection` and `events` members are
display-only pass-through data for the claims below and are omitted.) -/
structure ClientCargoDetail where
  cargo : CargoInfo
  documents : List CargoDocument
deriving DecidableEq

/-- `CargoApproval.kind` is the closed union `'DECLARATION_DRAFT' | 'ASSESSMENT'`. -/
inductive ApprovalKind where
  | DECLARATION_DRAFT
  | ASSESSMENT
deriving DecidableEq

/-- `CargoApproval.status` is the closed union
`'PENDING' | 'APPROVED' | 'REJECTED' | 'EXPIRED'`. -/
inductive ApprovalStatus where
  | PENDING
  | APPROVED
  | REJECTED
  | EXPIRED
deriving DecidableEq

/-- The raw string carried by an `ApprovalKind` value. -/
def approvalKindStr : ApprovalKind → String
  | .DECLARATION_DRAFT => "DECLARATION_DRAFT"
  | .ASSESSMENT => "ASSESSMENT"

/-- The raw string carried by an `ApprovalStatus` value. -/
def approvalStatusStr : ApprovalStatus → String
  | .PENDING => "PENDING"
  | .APPROVED => "APPROVED"
  | .REJECTED => "REJECTED"
  | .EXPIRED => "EXPIRED"

/-- A `CargoApproval` row (`client.ts`).  `file_path` is optional and
nullable in the source; absence and `null` are conflated into `none`. -/
structure CargoApproval where
  id : String
  cargo_id : String
  kind : ApprovalKind
  status : ApprovalStatus
  file_url : Option String
  file_path : Option String
  notes : Option String
  created_at : String
  created_by : String
  decided_at : Option String
  decided_by : Option String
  rejection_reason : Option String
deriving DecidableEq

/-! ## Derived timeline (`buildDerivedTimeline` in `CargoDetail.tsx`) -/

/-- A timeline candidate before filtering/sorting/display: the record pushed
onto `events` inside `buildDerivedTimeline` (`at_` models the `at` field). -/
structure DerivedEvent where
  label : String
  at_ : String
  detail : Option String
  completed : Bool
deriving DecidableEq

/-- A display-ready timeline row (`UiTimelineEvent` in `CargoDetail.tsx`). -/
structure UiTimelineEvent where
  date : String
  time : String
  status : String
  location : String
  completed : Bool
  detail : Option String
deriving DecidableEq

/-- `formatIso` from `CargoDetail.tsx`: em-dashes for a missing timestamp,
the raw string with an empty time for an unparseable one, and the
`toISOString` slices otherwise. -/
def formatIso (env : JsEnv) (ts : Option String) : String × String :=
  match ts with
  | none => ("—", "—")
  | some s =>
    if s = "" then ("—", "—")
    else
      match env.parse s with
      | none => (s, "")
      | some t => env.isoFmt t

/-- Documents with `status === 'UPLOADED'` and a truthy `uploaded_at`. -/
def uploadedDocs (detail : ClientCargoDetail) : List CargoDocument :=
  detail.documents.filter (fun d => d.status == "UPLOADED" && truthyOpt d.uploaded_at)

/-- Documents with `status === 'VERIFIED'` and a truthy `verified_at`. -/
def verifiedDocs (detail : ClientCargoDetail) : List CargoDocument :=
  detail.documents.filter (fun d => d.status == "VERIFIED" && truthyOpt d.verified_at)

/-- The upload timestamps of `uploadedDocs` (the `as string` cast in the
source is sound because the filter required a truthy `uploaded_at`). -/
def uploadedTimes (detail : ClientCargoDetail) : List String :=
  (uploadedDocs detail).map (fun d => d.uploaded_at.getD "")

/-- The verification timestamps of `verifiedDocs`. -/
def verifiedTimes (detail : ClientCargoDetail) : List String :=
  (verifiedDocs detail).map (fun d => d.verified_at.getD "")

/-- `earliestUpload`: first element of the ascending sort of the upload
timestamps. -/
def earliestUpload (env : JsEnv) (detail : ClientCargoDetail) : Option String :=
  (sortAsc (parseKey env.parse) (uploadedTimes detail)).head?

/-- `latestUpload`: first element of the descending sort of the upload
timestamps. -/
def latestUpload (env : JsEnv) (detail : ClientCargoDetail) : Option String :=
  (sortDesc (parseKey env.parse) (uploadedTimes detail)).head?

/-- `latestVerified`: first element of the descending sort of the
verification timestamps. -/
def latestVerified (env : JsEnv) (detail : ClientCargoDetail) : Option String :=
  (sortDesc (parseKey env.parse) (verifiedTimes detail)).head?

/-- `detail.documents.some((d) => d.status === 'UPLOADED')`. -/
def hasUploaded (detail : ClientCargoDetail) : Bool :=
  detail.documents.any (fun d => d.status == "UPLOADED")

/-- `detail.documents.some((d) => d.status === 'VERIFIED')`. -/
def hasAnyVerified (detail : ClientCargoDetail) : Bool :=
  detail.documents.any (fun d => d.status == "VERIFIED")

/-- The timestamp of the "Validation in progress" candidate:
`latestUpload ?? earliestUpload ?? detail.cargo.created_at`. -/
def validationAt (env : JsEnv) (detail : ClientCargoDetail) : String :=
  match latestUpload env detail with
  | some t => t
  | none => (earliestUpload env detail).getD detail.cargo.created_at

/-- The always-pushed "Cargo created" candidate. -/
def createdEvent (detail : ClientCargoDetail) : DerivedEvent :=
  { label := "Cargo created", at_ := detail.cargo.created_at, detail := none, completed := true }

/-- The "Documents uploaded" candidate at timestamp `t`. -/
def uploadedEventAt (t : String) : DerivedEvent :=
  { label := "Documents uploaded", at_ := t,
    detail := some "Files detected in bucket (pre-validation).", completed := true }

/-- The "Validation in progress" candidate. -/
def validationEvent (env : JsEnv) (detail : ClientCargoDetail) : DerivedEvent :=
  { label := "Validation in progress", at_ := validationAt env detail,
    detail := some "Documents are present in the bucket and awaiting verification.",
    completed := false }

/-- The "Documents verified" candidate at timestamp `t`. -/
def verifiedEventAt (t : String) : DerivedEvent :=
  { label := "Documents verified", at_ := t, detail := none, completed := true }

/-- The candidate pushed for one approval record: label
`formatLabel(kind) + ' ' + formatLabel(status)`, timestamp
`decided_at ?? created_at`, completed iff `status !== 'PENDING'`. -/
def approvalEvent (env : JsEnv) (a : CargoApproval) : DerivedEvent :=
  { label := formatLabel (approvalKindStr a.kind) ++ " " ++ formatLabel (approvalStatusStr a.status),
    at_ := a.decided_at.getD a.created_at,
    detail := some (match a.decided_at with
      | some s => if s = "" then "Awaiting decision" else "Decided " ++ env.locFmt s
      | none => "Awaiting decision"),
    completed := decide (a.status ≠ ApprovalStatus.PENDING) }

/-- A conditional one-element list (the `if (x) events.push(...)` pattern). -/
def optEvent (o : Option String) (f : String → DerivedEvent) : List DerivedEvent :=
  match o with
  | some t => [f t]
  | none => []

/-- In push order: the candidate list built by `buildDerivedTimeline` before
the chronological filter/sort. -/
def derivedCandidates (env : JsEnv) (detail : ClientCargoDetail)
    (approvals : List CargoApproval) : List DerivedEvent :=
  createdEvent detail ::
    (optEvent (earliestUpload env detail) uploadedEventAt
      ++ (if hasUploaded detail && !hasAnyVerified detail then [validationEvent env detail] else [])
      ++ optEvent (latestVerified env detail) verifiedEventAt
      ++ approvals.map (approvalEvent env))

/-- The candidates surviving `!Number.isNaN(Date.parse(e.at))`. -/
def filteredCandidates (env : JsEnv) (detail : ClientCargoDetail)
    (approvals : List CargoApproval) : List DerivedEvent :=
  (derivedCandidates env detail approvals).filter (fun e => (env.parse e.at_).isSome)

/-- The sort key used by the comparator
`(a, b) => Date.parse(a.at) - Date.parse(b.at)`. -/
def timelineKey (env : JsEnv) (e : DerivedEvent) : Int :=
  parseKey env.parse e.at_

/-- The filtered candidates in chronological order. -/
def sortedDerivedEvents (env : JsEnv) (detail : ClientCargoDetail)
    (approvals : List CargoApproval) : List DerivedEvent :=
  sortAsc (timelineKey env) (filteredCandidates env detail approvals)

/-- The final display mapping of one sorted candidate. -/
def displayEvent (env : JsEnv) (ev : DerivedEvent) : UiTimelineEvent :=
  { date := (formatIso env (some ev.at_)).1, time := (formatIso env (some ev.at_)).2,
    status := ev.label, location := "—", completed := ev.completed, detail := ev.detail }

/-- `buildDerivedTimeline` from `CargoDetail.tsx`: filter out unparseable
timestamps, sort chronologically, map to display rows. -/
def buildDerivedTimeline (env : JsEnv) (detail : ClientCargoDetail)
    (approvals : List CargoApproval) : List UiTimelineEvent :=
  (sortedDerivedEvents env detail approvals).map (displayEvent env)

/-! ## Next required action (`getNextRequiredActionInfo` in `CargoDetail.tsx`) -/

/-- The result record of `getNextRequiredActionInfo`. -/
structure NextRequiredActionInfo where
  title : String
  subtitle : Option String
  raw : String
deriving DecidableEq

/-- The raw action values handled by explicit `switch` cases. -/
def knownActions : List String :=
  ["OPS_INSERT_PORT_OFFLOADED", "CLIENT_UPLOAD_REQUIRED_DOCUMENTS", "COMPLETE"]

/-- `getNextRequiredActionInfo` from `CargoDetail.tsx`.  The fallback branch
is `raw.replace(/^CLIENT_/, '').replace(/^OPS_/, '').replace(/_/g, ' ')
.toLowerCase().replace(/^\w/, c => c.toUpperCase())`. -/
def getNextRequiredActionInfo (rawAction : String) : NextRequiredActionInfo :=
  if rawAction = "OPS_INSERT_PORT_OFFLOADED" then
    { title := "Waiting for Port Offloading Confirmation", subtitle := some "(Ops)", raw := rawAction }
  else if rawAction = "CLIENT_UPLOAD_REQUIRED_DOCUMENTS" then
    { title := "Waiting for Required Documents", subtitle := some "(You)", raw := rawAction }
  else if rawAction = "COMPLETE" then
    { title := "No action required", subtitle := none, raw := rawAction }
  else
    { title := capitalizeFirstWordChar (jsToLower (underscoresToSpaces
        (stripLeading "OPS_" (stripLeading "CLIENT_" rawAction)))),
      subtitle := none, raw := rawAction }

/-- Modelled from the spec's words for the fallback formatter (claim C1):
strip exactly one leading `CLIENT_` or `OPS_` prefix (a string starts with
at most one of the two). -/
def specStrip (rawAction : String) : String :=
  if listIsPre "CLIENT_".data rawAction.data then ⟨rawAction.data.drop 7⟩
  else if listIsPre "OPS_".data rawAction.data then ⟨rawAction.data.drop 4⟩
  else rawAction

/-- Modelled from the spec's words for the fallback formatter (claim C1):
strip exactly one leading `CLIENT_` or `OPS_` prefix, replace underscores
with spaces, lower-case, capitalize the first letter.  Compared against the
source-derived `getNextRequiredActionInfo`. -/
def specFallbackTitle (rawAction : String) : String :=
  capitalizeFirstWordChar (jsToLower (underscoresToSpaces (specStrip rawAction)))

/-! ## SLA hint (`computeSlaHint` in `CargoDetail.tsx`) -/

/-- The closed union `'ok' | 'risk'`. -/
inductive SlaTone where
  | ok
  | risk
deriving DecidableEq

/-- The result record of `computeSlaHint`. -/
structure SlaHint where
  label : String
  tone : SlaTone
deriving DecidableEq

/-- `computeSlaHint` from `CargoDetail.tsx`, relative to the current time
`now` (model of `Date.now()`).  `Math.round(abs / 3_600_000)` on the exact
rational becomes `(2 * abs + 3600000) / 7200000` in natural division, and
`Math.floor(abs / 86_400_000)` becomes natural division. -/
def computeSlaHint (env : JsEnv) (now : Int) (eta : Option String) : Option SlaHint :=
  match eta with
  | none => none
  | some s =>
    if s = "" then none
    else
      match env.parse s with
      | none => none
      | some etaTime =>
        let msRemaining : Int := etaTime - now
        let ab : Nat := msRemaining.natAbs
        let hours : Nat := (2 * ab + 3600000) / 7200000
        let days : Nat := ab / 86400000
        let remainingText : String := if 0 ≤ msRemaining then "remaining" else "overdue"
        let timeText : String :=
          if 2 ≤ days then toString days ++ " days " ++ remainingText
          else toString hours ++ " hours " ++ remainingText
        let atRisk : Bool := decide (0 ≤ msRemaining ∧ msRemaining ≤ 24 * 3600000)
        some { label := "SLA: " ++ (if atRisk then "At Risk" else "On Track") ++ " (" ++ timeText ++ ")",
               tone := if atRisk then SlaTone.risk else SlaTone.ok }

/-! ## HTTP wrapper (`fetchJson` in `src/app/api/http.ts`) -/

/-- `res.ok`: status in the 2xx range. -/
def respOk (status : Nat) : Bool := decide (200 ≤ status ∧ status ≤ 299)

/-- An HTTP response as seen by the wrapper after `fetch` resolves: the
status, the text body used for error reporting, and the outcome of
`res.json()` (an `Except` since JSON parsing can throw with a message). -/
structure HttpResponse (α : Type) where
  status : Nat
  body : String
  json : Except String α

/-- The error message `` `${method} ${path} failed: ${status}` ``. -/
def errText (method path : String) (status : Nat) : String :=
  method ++ " " ++ path ++ " failed: " ++ toString status

/-- The catch-block test
`msg.includes('timeout') || msg.includes('aborted') || msg.includes('AbortError')`. -/
def msgTriggersRelogin (m : String) : Bool :=
  hasSubstr "timeout" m || hasSubstr "aborted" m || hasSubstr "AbortError" m

/-- The outcome of a `fetchJson` call: the settled promise and how many
times `redirectToLogin` ran. -/
structure FetchResult (α : Type) where
  result : Except String α
  redirects : Nat

/-- `fetchJson` from `http.ts`, for a call whose underlying `fetch`
resolved with `resp` (`method` is the effective `init.method ?? 'GET'`).
The `try` block redirects once and throws on 401/403, throws with the body
text on any other non-2xx, and otherwise returns the parsed JSON; the
`catch` block redirects again whenever the caught message contains
`timeout`, `aborted` or `AbortError`. -/
def fetchJson {α : Type} (method path : String) (resp : HttpResponse α) : FetchResult α :=
  let tryOutcome : Except String α × Nat :=
    if resp.status = 401 ∨ resp.status = 403 then
      (Except.error (errText method path resp.status), 1)
    else if respOk resp.status = false then
      (Except.error (errText method path resp.status ++ " " ++ resp.body), 0)
    else
      (resp.json, 0)
  match tryOutcome with
  | (Except.ok v, n) => { result := Except.ok v, redirects := n }
  | (Except.error m, n) =>
      { result := Except.error m,
        redirects := n + (if msgTriggersRelogin m then 1 else 0) }

/-! ## API client (`src/app/api/client.ts`) -/

/-- The camelCase input of `insertClientDocument`. -/
structure InsertClientDocumentInput where
  cargoId : String
  documentType : String
  driveUrl : String
deriving DecidableEq

/-- The JSON body sent by `insertClientDocument`, as ordered key/value
pairs (`JSON.stringify({cargo_id: ..., document_type: ..., drive_url: ...})`). -/
def insertClientDocumentBody (input : InsertClientDocumentInput) : List (String × String) :=
  [("cargo_id", input.cargoId), ("document_type", input.documentType),
   ("drive_url", input.driveUrl)]

/-- The response of `POST /client/documents` as `insertClientDocument`
inspects it.  `json = none` models a JSON `null` body, `json = some none`
an object without an `id` field, and `json = some (some s)` an object with
`id: s`. -/
structure InsertDocResponse where
  status : Nat
  body : String
  json : Option (Option String)
deriving DecidableEq

/-- The response handling of `insertClientDocument`: throw on non-2xx,
throw `missing id` when `!data?.id` (absent, `null`, or `""`), otherwise
return `{ id }`. -/
def insertClientDocument (input : InsertClientDocumentInput)
    (resp : InsertDocResponse) : List (String × String) × Except String String :=
  let result : Except String String :=
    if respOk resp.status = false then
      Except.error ("insertClientDocument failed: " ++ toString resp.status ++ " " ++ resp.body)
    else
      match resp.json with
      | none => Except.error "insertClientDocument: missing id"
      | some none => Except.error "insertClientDocument: missing id"
      | some (some id) =>
        if id = "" then Except.error "insertClientDocument: missing id"
        else Except.ok id
  (insertClientDocumentBody input, result)

/-- The nested document totals of a shipment row. -/
structure DocumentsSummary where
  total_required : Nat
  total_submitted : Nat
  total_verified : Nat
  all_submitted : Bool
  all_verified : Bool
deriving DecidableEq

/-- A `ClientShipmentRow` (`client.ts`). -/
structure ClientShipmentRow where
  cargo_id : String
  route : Option String
  vessel : Option String
  origin : Option String
  destination : Option String
  expected_arrival_date : String
  eta : String
  latest_event : Option String
  latest_event_time : Option String
  next_required_action : String
  documents : DocumentsSummary
  created_at : String
deriving DecidableEq

/-- A backend response carrying a parsed JSON value of type `α`. -/
structure ApiResponse (α : Type) where
  status : Nat
  body : String
  json : α

/-- `getClientShipments`: throw on non-2xx, otherwise return
`{ shipments: data?.shipments ?? [] }`.  The JSON is modelled as
`Option (Option _)`: outer `none` is a `null`/`undefined` body, inner
`none` a body without the `shipments` field. -/
def getClientShipments
    (resp : ApiResponse (Option (Option (List ClientShipmentRow)))) :
    Except String (List ClientShipmentRow) :=
  if respOk resp.status = false then
    Except.error ("getClientShipments failed: " ++ toString resp.status ++ " " ++ resp.body)
  else
    Except.ok ((resp.json.bind id).getD [])

/-- `getClientCargoApprovals`: throw on non-2xx, otherwise return
`{ approvals: data?.approvals ?? [] }`. -/
def getClientCargoApprovals
    (resp : ApiResponse (Option (Option (List CargoApproval)))) :
    Except String (List CargoApproval) :=
  if respOk resp.status = false then
    Except.error ("getClientCargoApprovals failed: " ++ toString resp.status ++ " " ++ resp.body)
  else
    Except.ok ((resp.json.bind id).getD [])

/-- The parsed response of `POST /client/cargo/{id}/upload-url`. -/
structure CreateUploadUrlResult where
  path : String
  signed_url : String
  expires_in : Nat
deriving DecidableEq

/-- The JSON body sent by `createClientDocumentUploadUrl`:
`JSON.stringify({ document_type, file_name })`. -/
def createUploadUrlBody (documentType fileName : String) : List (String × String) :=
  [("document_type", documentType), ("file_name", fileName)]

/-- The response handling of `createClientDocumentUploadUrl`: throw on
non-2xx, otherwise return the parsed `{path, signed_url, expires_in}`. -/
def createClientDocumentUploadUrl (resp : ApiResponse CreateUploadUrlResult) :
    Except String CreateUploadUrlResult :=
  if respOk resp.status = false then
    Except.error ("createClientDocumentUploadUrl failed: " ++ toString resp.status ++ " " ++ resp.body)
  else
    Except.ok resp.json

/-! ## Upload helper (`uploadClientDocumentFile` in `src/app/auth/storage.ts`) -/

/-- The observable identity of a `File`: its name and MIME type (an empty
`type` models a file without a known type, which is falsy in JavaScript).
The byte contents stay abstract; the PUT request below carries the file
value itself as its body. -/
structure UploadFile where
  name : String
  type : String
deriving DecidableEq

/-- The direct PUT request issued against the signed URL. -/
structure PutRequest where
  url : String
  method : String
  contentType : String
  file : UploadFile
deriving DecidableEq

/-- The status and text body with which the storage host answered the PUT. -/
structure PutResponse where
  status : Nat
  body : String
deriving DecidableEq

/-- The PUT issued by `uploadClientDocumentFile`: method `PUT` against
`upload.signed_url`, content type `file.type || 'application/octet-stream'`,
body the file itself. -/
def uploadPutRequest (file : UploadFile) (upload : CreateUploadUrlResult) : PutRequest :=
  { url := upload.signed_url, method := "PUT",
    contentType := if file.type = "" then "application/octet-stream" else file.type,
    file := file }

/-- The arguments of `uploadClientDocumentFile`. -/
structure UploadArgs where
  cargoId : String
  documentType : String
  file : UploadFile
deriving DecidableEq

/-- `uploadClientDocumentFile` from `storage.ts`: first obtain a signed
upload URL (the worker call, answered here by `createResp`; its request body
is `createUploadUrlBody args.documentType args.file.name`), then PUT the
file to `upload.signed_url` (answered by `putResp`).  Returns the PUT
request that was issued (`none` when the first phase already failed) and
either the storage object `path` or the error thrown. -/
def uploadClientDocumentFile (args : UploadArgs)
    (createResp : ApiResponse CreateUploadUrlResult) (putResp : PutResponse) :
    Option PutRequest × Except String String :=
  match createClientDocumentUploadUrl createResp with
  | Except.error m => (none, Except.error m)
  | Except.ok upload =>
    let req := uploadPutRequest args.file upload
    if respOk putResp.status = false then
      (some req, Except.error ("Signed upload failed: " ++ toString putResp.status ++ " " ++ putResp.body))
    else
      (some req, Except.ok upload.path)

/-! ## Concrete inputs used by counterexamples and witnesses

Each concrete `JsEnv` agrees with the JavaScript date functions on every
string it is ever applied to: the listed ISO dates have the listed epoch
values, and `Date.parse` yields `NaN` on `"not-a-date"` and `"garbage"`. -/

/-- Environment for the C2 counterexample: only `2024-01-01` parses. -/
def envA : JsEnv :=
  { parse := fun s => if s = "2024-01-01" then some 1704067200000 else none,
    isoFmt := fun _ => ("2024-01-01", "00:00 UTC"),
    locFmt := fun _ => "" }

/-- A detail with one `UPLOADED` document whose upload timestamp does not
parse. -/
def detailA : ClientCargoDetail :=
  { cargo := { cargo_id := "CARGO-1", client_id := "client-1", container_count := 1,
               expected_arrival_date := "2024-01-20", eta := "2024-01-20",
               created_at := "2024-01-01" },
    documents := [{ id := "d1", document_type := "BILL_OF_LADING", status := "UPLOADED",
                    drive_url := none, uploaded_at := some "not-a-date", verified_at := none }] }

/-- Environment for witnesses: three February 2024 dates parse. -/
def envW : JsEnv :=
  { parse := fun s =>
      if s = "2024-02-01" then some 1706745600000
      else if s = "2024-02-03" then some 1706918400000
      else if s = "2024-02-05" then some 1707091200000
      else none,
    isoFmt := fun _ => ("2024-02-01", "00:00 UTC"),
    locFmt := fun _ => "" }

/-- A detail with one `UPLOADED` document whose timestamps parse under `envW`. -/
def detailW : ClientCargoDetail :=
  { cargo := { cargo_id := "CARGO-W", client_id := "client-1", container_count := 1,
               expected_arrival_date := "2024-02-10", eta := "2024-02-10",
               created_at := "2024-02-01" },
    documents := [{ id := "d1", document_type := "BILL_OF_LADING", status := "UPLOADED",
                    drive_url := none, uploaded_at := some "2024-02-03", verified_at := none }] }

/-- Environment where nothing parses (`Date.parse` is `NaN` on `"garbage"`). -/
def envNone : JsEnv :=
  { parse := fun _ => none, isoFmt := fun _ => ("", ""), locFmt := fun _ => "" }

/-- A detail whose creation timestamp does not parse. -/
def detailGarbage : ClientCargoDetail :=
  { cargo := { cargo_id := "CARGO-2", client_id := "client-1", container_count := 1,
               expected_arrival_date := "soon", eta := "soon", created_at := "garbage" },
    documents := [] }

/-- Environment for the C8 counterexample: three January 2024 dates parse. -/
def envB : JsEnv :=
  { parse := fun s =>
      if s = "2024-01-01" then some 1704067200000
      else if s = "2024-01-03" then some 1704240000000
      else if s = "2024-01-05" then some 1704412800000
      else none,
    isoFmt := fun _ => ("2024-01-01", "00:00 UTC"),
    locFmt := fun _ => "" }

/-- A detail whose only document is `VERIFIED` but still carries an upload
timestamp. -/
def detailB : ClientCargoDetail :=
  { cargo := { cargo_id := "CARGO-3", client_id := "client-1", container_count := 1,
               expected_arrival_date := "2024-01-20", eta := "2024-01-20",
               created_at := "2024-01-01" },
    documents := [{ id := "d1", document_type := "BILL_OF_LADING", status := "VERIFIED",
                    drive_url := some "https://drive.example/doc",
                    uploaded_at := some "2024-01-03", verified_at := some "2024-01-05" }] }

/-- Environment for the C3 witness: `E12` parses to now + 12 hours and `E3`
to now + 3 days (with `now = 0`). -/
def envSla : JsEnv :=
  { parse := fun s =>
      if s = "E12" then some 43200000
      else if s = "E3" then some 259200000
      else none,
    isoFmt := fun _ => ("", ""), locFmt := fun _ => "" }

/-- A 401 response (its JSON was never parsed; reading it throws). -/
def resp401 : HttpResponse Unit :=
  { status := 401, body := "", json := Except.error "SyntaxError" }

/-- A camelCase input for `insertClientDocument`. -/
def inputC5 : InsertClientDocumentInput :=
  { cargoId := "CARGO-9", documentType := "PACKING_LIST",
    driveUrl := "client-docs/CARGO-9/packing.pdf" }

/-- A 2xx response to `POST /client/documents` whose JSON object lacks `id`. -/
def respNoId : InsertDocResponse := { status := 200, body := "", json := some none }

/-- A 2xx response to `POST /client/documents` with `id` present. -/
def respWithId : InsertDocResponse := { status := 200, body := "", json := some (some "doc-7") }

/-- Arguments for the C9 witness: a file without a MIME type. -/
def argsC9 : UploadArgs :=
  { cargoId := "CARGO-9", documentType := "PACKING_LIST",
    file := { name := "packing.pdf", type := "" } }

/-- A successful `upload-url` response. -/
def createRespC9 : ApiResponse CreateUploadUrlResult :=
  { status := 200, body := "",
    json := { path := "client-docs/CARGO-9/packing.pdf",
              signed_url := "https://storage.example/signed/abc", expires_in := 3600 } }

/-- A rejected PUT. -/
def putRespFail : PutResponse := { status := 403, body := "denied" }

/-- A successful PUT. -/
def putRespGood : PutResponse := { status := 200, body := "" }

/-- A 2xx shipments response with a JSON `null` body. -/
def shipRespNull : ApiResponse (Option (Option (List ClientShipmentRow))) :=
  { status := 200, body := "null", json := none }

/-- A 2xx approvals response whose object lacks the `approvals` field. -/
def apprRespNoField : ApiResponse (Option (Option (List CargoApproval))) :=
  { status := 200, body := "{}", json := some none }

/-! ## Basic lemmas about the string primitives -/

theorem listIsPre_iff {p l : List Char} : listIsPre p l = true ↔ p <+: l := by
  induction p generalizing l with
  | nil => simp [listIsPre]
  | cons a as ih =>
    cases l with
    | nil =>
      constructor
      · intro h; simp [listIsPre] at h
      · rintro ⟨t, h⟩; simp at h
    | cons b bs =>
      simp [listIsPre, Bool.and_eq_true, List.cons_prefix_cons, ih, beq_iff_eq]

theorem isPre_nil {α : Type} {p : List α} : p <+: ([] : List α) ↔ p = [] := by
  constructor
  · rintro ⟨t, h⟩; exact (List.append_eq_nil.mp h).1
  · rintro rfl; exact ⟨[], rfl⟩

theorem isInfix_nil {α : Type} {p : List α} : p <:+: ([] : List α) ↔ p = [] := by
  constructor
  · rintro ⟨s, t, h⟩
    rcases List.append_eq_nil.mp h with ⟨h1, _⟩
    exact (List.append_eq_nil.mp h1).2
  · rintro rfl; exact ⟨[], [], rfl⟩

theorem isInfix_cons_iff {α : Type} {p rest : List α} {c : α} :
    p <:+: (c :: rest) ↔ p <+: (c :: rest) ∨ p <:+: rest := by
  constructor
  · rintro ⟨s, t, h⟩
    cases s with
    | nil => exact Or.inl ⟨t, by simpa using h⟩
    | cons x xs =>
      simp only [List.cons_append, List.cons.injEq] at h
      exact Or.inr ⟨xs, t, h.2⟩
  · rintro (⟨t, h⟩ | ⟨s, t, h⟩)
    · exact ⟨[], t, by simpa using h⟩
    · exact ⟨c :: s, t, by simp only [List.cons_append, h]⟩

theorem containsSub_iff {p l : List Char} : containsSub p l = true ↔ p <:+: l := by
  induction l with
  | nil => simp [containsSub, listIsPre_iff, isPre_nil, isInfix_nil]
  | cons c rest ih =>
    simp [containsSub, Bool.or_eq_true, listIsPre_iff, ih, isInfix_cons_iff]

theorem hasSubstr_iff {pat s : String} : hasSubstr pat s = true ↔ pat.data <:+: s.data :=
  containsSub_iff

theorem hasSubstr_of_parts {pat s : String} (pre post : List Char)
    (h : pre ++ pat.data ++ post = s.data) : hasSubstr pat s = true :=
  hasSubstr_iff.mpr ⟨pre, post, h⟩

/-! ## Basic lemmas about the stable sorts -/

theorem insertBy_perm {α : Type} (key : α → Int) (x : α) (l : List α) :
    (insertBy key x l).Perm (x :: l) := by
  induction l with
  | nil => rfl
  | cons y ys ih =>
    rw [insertBy]
    split
    · exact (ih.cons y).trans (List.Perm.swap x y ys)
    · rfl

theorem insertByDesc_perm {α : Type} (key : α → Int) (x : α) (l : List α) :
    (insertByDesc key x l).Perm (x :: l) := by
  induction l with
  | nil => rfl
  | cons y ys ih =>
    rw [insertByDesc]
    split
    · exact (ih.cons y).trans (List.Perm.swap x y ys)
    · rfl

theorem sortAsc_perm {α : Type} (key : α → Int) (l : List α) :
    (sortAsc key l).Perm l := by
  induction l with
  | nil => rfl
  | cons x xs ih =>
    exact (insertBy_perm key x (sortAsc key xs)).trans (ih.cons x)

theorem sortDesc_perm {α : Type} (key : α → Int) (l : List α) :
    (sortDesc key l).Perm l := by
  induction l with
  | nil => rfl
  | cons x xs ih =>
    exact (insertByDesc_perm key x (sortDesc key xs)).trans (ih.cons x)

theorem mem_sortAsc {α : Type} {key : α → Int} {l : List α} {a : α} :
    a ∈ sortAsc key l ↔ a ∈ l :=
  (sortAsc_perm key l).mem_iff

theorem mem_sortDesc {α : Type} {key : α → Int} {l : List α} {a : α} :
    a ∈ sortDesc key l ↔ a ∈ l :=
  (sortDesc_perm key l).mem_iff

theorem sortAsc_eq_nil_iff {α : Type} {key : α → Int} {l : List α} :
    sortAsc key l = [] ↔ l = [] := by
  constructor
  · intro h
    have hlen := (sortAsc_perm key l).length_eq
    rw [h] at hlen
    exact List.length_eq_zero.mp hlen.symm
  · rintro rfl; rfl

theorem sortDesc_eq_nil_iff {α : Type} {key : α → Int} {l : List α} :
    sortDesc key l = [] ↔ l = [] := by
  constructor
  · intro h
    have hlen := (sortDesc_perm key l).length_eq
    rw [h] at hlen
    exact List.length_eq_zero.mp hlen.symm
  · rintro rfl; rfl

theorem insertBy_pairwise {α : Type} {key : α → Int} {x : α} {l : List α}
    (h : l.Pairwise (fun a b => key a ≤ key b)) :
    (insertBy key x l).Pairwise (fun a b => key a ≤ key b) := by
  induction l with
  | nil => simp [insertBy]
  | cons y ys ih =>
    obtain ⟨hy, hys⟩ := List.pairwise_cons.mp h
    rw [insertBy]
    split
    · rename_i hlt
      refine List.pairwise_cons.mpr ⟨?_, ih hys⟩
      intro u hu
      rcases List.mem_cons.mp ((insertBy_perm key x ys).mem_iff.mp hu) with rfl | h2
      · exact le_of_lt hlt
      · exact hy u h2
    · rename_i hge
      refine List.pairwise_cons.mpr ⟨?_, h⟩
      intro u hu
      rcases List.mem_cons.mp hu with rfl | h2
      · exact le_of_not_lt hge
      · exact le_trans (le_of_not_lt hge) (hy u h2)

theorem sortAsc_pairwise {α : Type} (key : α → Int) (l : List α) :
    (sortAsc key l).Pairwise (fun a b => key a ≤ key b) := by
  induction l with
  | nil => simp [sortAsc]
  | cons x xs ih => exact insertBy_pairwise ih

theorem insertByDesc_pairwise {α : Type} {key : α → Int} {x : α} {l : List α}
    (h : l.Pairwise (fun a b => key b ≤ key a)) :
    (insertByDesc key x l).Pairwise (fun a b => key b ≤ key a) := by
  induction l with
  | nil => simp [insertByDesc]
  | cons y ys ih =>
    obtain ⟨hy, hys⟩ := List.pairwise_cons.mp h
    rw [insertByDesc]
    split
    · rename_i hlt
      refine List.pairwise_cons.mpr ⟨?_, ih hys⟩
      intro u hu
      rcases List.mem_cons.mp ((insertByDesc_perm key x ys).mem_iff.mp hu) with rfl | h2
      · exact le_of_lt hlt
      · exact hy u h2
    · rename_i hge
      refine List.pairwise_cons.mpr ⟨?_, h⟩
      intro u hu
      rcases List.mem_cons.mp hu with rfl | h2
      · exact le_of_not_lt hge
      · exact le_trans (hy u h2) (le_of_not_lt hge)

theorem sortDesc_pairwise {α : Type} (key : α → Int) (l : List α) :
    (sortDesc key l).Pairwise (fun a b => key b ≤ key a) := by
  induction l with
  | nil => simp [sortDesc]
  | cons x xs ih => exact insertByDesc_pairwise ih

theorem sortAsc_head {α : Type} (key : α → Int) (l : List α) (h : l ≠ []) :
    ∃ t, (sortAsc key l).head? = some t ∧ t ∈ l ∧ ∀ u ∈ l, key t ≤ key u := by
  have hne : sortAsc key l ≠ [] := fun hcon => h (sortAsc_eq_nil_iff.mp hcon)
  obtain ⟨t, rest, hcons⟩ := List.exists_cons_of_ne_nil hne
  refine ⟨t, by rw [hcons]; rfl, ?_, ?_⟩
  · exact mem_sortAsc.mp (by rw [hcons]; exact List.mem_cons_self ..)
  · intro u hu
    have hu2 : u ∈ sortAsc key l := mem_sortAsc.mpr hu
    rw [hcons] at hu2
    rcases List.mem_cons.mp hu2 with rfl | hmem
    · exact le_refl _
    · have hp := sortAsc_pairwise key l
      rw [hcons] at hp
      exact (List.pairwise_cons.mp hp).1 u hmem

theorem sortDesc_head {α : Type} (key : α → Int) (l : List α) (h : l ≠ []) :
    ∃ t, (sortDesc key l).head? = some t ∧ t ∈ l ∧ ∀ u ∈ l, key u ≤ key t := by
  have hne : sortDesc key l ≠ [] := fun hcon => h (sortDesc_eq_nil_iff.mp hcon)
  obtain ⟨t, rest, hcons⟩ := List.exists_cons_of_ne_nil hne
  refine ⟨t, by rw [hcons]; rfl, ?_, ?_⟩
  · exact mem_sortDesc.mp (by rw [hcons]; exact List.mem_cons_self ..)
  · intro u hu
    have hu2 : u ∈ sortDesc key l := mem_sortDesc.mpr hu
    rw [hcons] at hu2
    rcases List.mem_cons.mp hu2 with rfl | hmem
    · exact le_refl _
    · have hp := sortDesc_pairwise key l
      rw [hcons] at hp
      exact (List.pairwise_cons.mp hp).1 u hmem

theorem insertBy_filter_key {α : Type} (key : α → Int) (x : α) (l : List α) (k : Int) :
    (insertBy key x l).filter (fun e => key e == k)
      = if key x == k then x :: l.filter (fun e => key e == k)
        else l.filter (fun e => key e == k) := by
  induction l with
  | nil => by_cases hx : key x == k <;> simp [insertBy, hx, List.filter]
  | cons y ys ih =>
    rw [insertBy]
    split
    · rename_i hlt
      by_cases hx : (key x == k) = true
      · have hy : (key y == k) = false := by
          have hxk : key x = k := by simpa using hx
          have hne : key y ≠ k := by
            intro hyk
            rw [hyk, ← hxk] at hlt
            exact lt_irrefl _ hlt
          simpa using hne
        rw [if_pos hx]
        rw [List.filter_cons, List.filter_cons, ih, if_pos hx]
        simp [hy]
      · have hx2 : (key x == k) = false := by simpa using hx
        rw [if_neg (by simp [hx2])]
        rw [List.filter_cons, List.filter_cons, ih]
        simp [hx2]
    · by_cases hx : (key x == k) = true
      · rw [List.filter_cons_of_pos (by simp [hx]), if_pos hx]
      · have hx2 : (key x == k) = false := by simpa using hx
        rw [List.filter_cons_of_neg (by simp [hx2]), if_neg (by simp [hx2])]

theorem sortAsc_filter_key {α : Type} (key : α → Int) (l : List α) (k : Int) :
    (sortAsc key l).filter (fun e => key e == k) = l.filter (fun e => key e == k) := by
  induction l with
  | nil => rfl
  | cons x xs ih =>
    rw [sortAsc, insertBy_filter_key, List.filter_cons]
    by_cases hx : (key x == k) = true
    · rw [if_pos hx, if_pos (by simp [hx]), ih]
    · have hx2 : (key x == k) = false := by simpa using hx
      rw [if_neg (by simp [hx2]), if_neg (by simp [hx2]), ih]

/-! ## Claim C1: the fallback next-required-action formatter -/

theorem stripLeading_of_lead {pre s : String} {t : List Char}
    (h : pre.data ++ t = s.data) : stripLeading pre s = ⟨t⟩ := by
  have hc : listIsPre pre.data s.data = true := listIsPre_iff.mpr ⟨t, h⟩
  rw [stripLeading, if_pos hc]
  have : s.data.drop pre.data.length = t := by
    rw [← h, List.drop_left]
  rw [this]

theorem stripLeading_of_not_lead {pre s : String}
    (h : listIsPre pre.data s.data = false) : stripLeading pre s = s := by
  rw [stripLeading, if_neg (by simp [h])]

theorem strip_core (raw : String)
    (h2 : listIsPre "CLIENT_OPS_".data raw.data = false) :
    stripLeading "OPS_" (stripLeading "CLIENT_" raw) = specStrip raw := by
  by_cases hc : listIsPre "CLIENT_".data raw.data = true
  · obtain ⟨t, ht⟩ := listIsPre_iff.mp hc
    have hstrip1 : stripLeading "CLIENT_" raw = ⟨t⟩ := stripLeading_of_lead ht
    have hno : listIsPre "OPS_".data t = false := by
      by_contra hcon
      rw [Bool.not_eq_false] at hcon
      obtain ⟨u, hu⟩ := listIsPre_iff.mp hcon
      have hsplit : "CLIENT_OPS_".data = "CLIENT_".data ++ "OPS_".data := by decide
      have : listIsPre "CLIENT_OPS_".data raw.data = true := by
        apply listIsPre_iff.mpr
        exact ⟨u, by rw [hsplit, List.append_assoc, hu, ht]⟩
      rw [this] at h2
      cases h2
    have hstrip2 : stripLeading "OPS_" (⟨t⟩ : String) = ⟨t⟩ :=
      stripLeading_of_not_lead hno
    have hdrop : raw.data.drop 7 = t := by
      have h7 : ("CLIENT_".data).length = 7 := by decide
      rw [← h7, ← ht, List.drop_left]
    rw [hstrip1, hstrip2, specStrip, if_pos hc, hdrop]
  · have hcf : listIsPre "CLIENT_".data raw.data = false := by
      cases h : listIsPre "CLIENT_".data raw.data
      · rfl
      · exact absurd h hc
    rw [stripLeading_of_not_lead hcf, specStrip, if_neg (by simp [hcf])]
    by_cases ho : listIsPre "OPS_".data raw.data = true
    · obtain ⟨t, ht⟩ := listIsPre_iff.mp ho
      have h4 : ("OPS_".data).length = 4 := by decide
      have hdrop : raw.data.drop 4 = t := by rw [← h4, ← ht, List.drop_left]
      rw [stripLeading_of_lead ht, if_pos ho, hdrop]
    · have hof : listIsPre "OPS_".data raw.data = false := by
        cases h : listIsPre "OPS_".data raw.data
        · rfl
        · exact absurd h ho
      rw [stripLeading_of_not_lead hof, if_neg (by simp [hof])]

/-- Claim C1 (corrected): on `CLIENT_OPS_FOO` — outside the known set — the
code strips both prefixes and yields title `"Foo"`, while stripping exactly
one leading prefix as the claim demands would yield `"Ops foo"`; the claim's
equality fails at this input. -/
theorem C1_counterexample :
    "CLIENT_OPS_FOO" ∉ knownActions ∧
    (getNextRequiredActionInfo "CLIENT_OPS_FOO").title = "Foo" ∧
    specFallbackTitle "CLIENT_OPS_FOO" = "Ops foo" ∧
    (getNextRequiredActionInfo "CLIENT_OPS_FOO").title ≠
      specFallbackTitle "CLIENT_OPS_FOO" := by decide

/-- Claim C1 (amended): for raw actions outside the known set that do not
begin with `CLIENT_OPS_`, the fallback title equals the spec's formatter
(strip exactly one leading `CLIENT_`/`OPS_` prefix, underscores to spaces,
lower-case, capitalize the first character), and the `raw` field always
preserves the input unchanged. -/
theorem C1_fallback_formatter (raw : String) (h1 : raw ∉ knownActions)
    (h2 : listIsPre "CLIENT_OPS_".data raw.data = false) :
    (getNextRequiredActionInfo raw).title = specFallbackTitle raw ∧
    (getNextRequiredActionInfo raw).raw = raw := by
  have hne1 : ¬ raw = "OPS_INSERT_PORT_OFFLOADED" := fun h => h1 (by simp [knownActions, h])
  have hne2 : ¬ raw = "CLIENT_UPLOAD_REQUIRED_DOCUMENTS" := fun h => h1 (by simp [knownActions, h])
  have hne3 : ¬ raw = "COMPLETE" := fun h => h1 (by simp [knownActions, h])
  constructor
  · rw [getNextRequiredActionInfo, if_neg hne1, if_neg hne2, if_neg hne3]
    rw [specFallbackTitle, ← strip_core raw h2]
  · rw [getNextRequiredActionInfo]
    split <;> rfl

/-- Witness for C1: `OPS_FOO_BAR` satisfies the hypotheses, and the theorem
yields the spec's `"Foo bar"` behaviour there. -/
theorem C1_fallback_formatter_witness :
    ("OPS_FOO_BAR" ∉ knownActions ∧
      listIsPre "CLIENT_OPS_".data "OPS_FOO_BAR".data = false) ∧
    ((getNextRequiredActionInfo "OPS_FOO_BAR").title = specFallbackTitle "OPS_FOO_BAR" ∧
      (getNextRequiredActionInfo "OPS_FOO_BAR").raw = "OPS_FOO_BAR") :=
  ⟨⟨by decide, by decide⟩, C1_fallback_formatter "OPS_FOO_BAR" (by decide) (by decide)⟩

/-! ## Structure of the derived-timeline candidates -/

theorem createdEvent_label (detail : ClientCargoDetail) :
    (createdEvent detail).label = "Cargo created" := rfl

theorem uploadedEventAt_label (t : String) :
    (uploadedEventAt t).label = "Documents uploaded" := rfl

theorem validationEvent_label (env : JsEnv) (detail : ClientCargoDetail) :
    (validationEvent env detail).label = "Validation in progress" := rfl

theorem verifiedEventAt_label (t : String) :
    (verifiedEventAt t).label = "Documents verified" := rfl

theorem approvalEvent_label_ne (env : JsEnv) (a : CargoApproval) :
    (approvalEvent env a).label ≠ "Cargo created" ∧
    (approvalEvent env a).label ≠ "Documents uploaded" ∧
    (approvalEvent env a).label ≠ "Validation in progress" ∧
    (approvalEvent env a).label ≠ "Documents verified" := by
  have hl : (approvalEvent env a).label =
      formatLabel (approvalKindStr a.kind) ++ " " ++ formatLabel (approvalStatusStr a.status) := rfl
  rw [hl]
  cases hk : a.kind <;> cases hs : a.status <;> decide

theorem mem_if_singleton {α : Type} {b : Bool} {x e : α} :
    e ∈ (if b then [x] else []) ↔ b = true ∧ e = x := by
  cases b <;> simp

theorem mem_optEvent {o : Option String} {f : String → DerivedEvent} {e : DerivedEvent} :
    e ∈ optEvent o f ↔ ∃ t, o = some t ∧ e = f t := by
  cases o <;> simp [optEvent, eq_comm]

theorem mem_derivedCandidates {env : JsEnv} {detail : ClientCargoDetail}
    {approvals : List CargoApproval} {e : DerivedEvent} :
    e ∈ derivedCandidates env detail approvals ↔
      e = createdEvent detail
      ∨ (∃ t, earliestUpload env detail = some t ∧ e = uploadedEventAt t)
      ∨ ((hasUploaded detail && !hasAnyVerified detail) = true ∧ e = validationEvent env detail)
      ∨ (∃ t, latestVerified env detail = some t ∧ e = verifiedEventAt t)
      ∨ (∃ a ∈ approvals, e = approvalEvent env a) := by
  rw [derivedCandidates, List.mem_cons]
  simp only [List.mem_append, mem_optEvent, mem_if_singleton, List.mem_map]
  constructor
  · rintro (h | (((h | h) | h) | ⟨a, ha, hEq⟩))
    · exact Or.inl h
    · exact Or.inr (Or.inl h)
    · exact Or.inr (Or.inr (Or.inl h))
    · exact Or.inr (Or.inr (Or.inr (Or.inl h)))
    · exact Or.inr (Or.inr (Or.inr (Or.inr ⟨a, ha, hEq.symm⟩)))
  · rintro (h | h | h | h | ⟨a, ha, hEq⟩)
    · exact Or.inl h
    · exact Or.inr (Or.inl (Or.inl (Or.inl h)))
    · exact Or.inr (Or.inl (Or.inl (Or.inr h)))
    · exact Or.inr (Or.inl (Or.inr h))
    · exact Or.inr (Or.inr ⟨a, ha, hEq.symm⟩)

theorem mem_sortedDerivedEvents {env : JsEnv} {detail : ClientCargoDetail}
    {approvals : List CargoApproval} {e : DerivedEvent} :
    e ∈ sortedDerivedEvents env detail approvals ↔
      e ∈ derivedCandidates env detail approvals ∧ (env.parse e.at_).isSome = true := by
  rw [sortedDerivedEvents, mem_sortAsc, filteredCandidates, List.mem_filter]

theorem mem_buildDerivedTimeline {env : JsEnv} {detail : ClientCargoDetail}
    {approvals : List CargoApproval} {u : UiTimelineEvent} :
    u ∈ buildDerivedTimeline env detail approvals ↔
      ∃ e ∈ sortedDerivedEvents env detail approvals, displayEvent env e = u := by
  rw [buildDerivedTimeline, List.mem_map]

theorem displayEvent_status (env : JsEnv) (e : DerivedEvent) :
    (displayEvent env e).status = e.label := rfl

theorem displayEvent_completed (env : JsEnv) (e : DerivedEvent) :
    (displayEvent env e).completed = e.completed := rfl

theorem buildStatus_iff {env : JsEnv} {detail : ClientCargoDetail}
    {approvals : List CargoApproval} {L : String} :
    (∃ u ∈ buildDerivedTimeline env detail approvals, u.status = L) ↔
      (∃ e ∈ sortedDerivedEvents env detail approvals, e.label = L) := by
  constructor
  · rintro ⟨u, hu, hst⟩
    obtain ⟨e, he, hEq⟩ := mem_buildDerivedTimeline.mp hu
    exact ⟨e, he, by rw [← hEq] at hst; rwa [displayEvent_status] at hst⟩
  · rintro ⟨e, he, hl⟩
    exact ⟨displayEvent env e, mem_buildDerivedTimeline.mpr ⟨e, he, rfl⟩,
      by rw [displayEvent_status]; exact hl⟩

theorem uploadedTimes_ne_nil_iff {detail : ClientCargoDetail} :
    uploadedTimes detail ≠ [] ↔
      ∃ d ∈ detail.documents, d.status = "UPLOADED" ∧ truthyOpt d.uploaded_at = true := by
  rw [Ne, uploadedTimes, List.map_eq_nil_iff, uploadedDocs, List.filter_eq_nil_iff]
  push_neg
  simp [Bool.and_eq_true, beq_iff_eq]

theorem verifiedTimes_ne_nil_iff {detail : ClientCargoDetail} :
    verifiedTimes detail ≠ [] ↔
      ∃ d ∈ detail.documents, d.status = "VERIFIED" ∧ truthyOpt d.verified_at = true := by
  rw [Ne, verifiedTimes, List.map_eq_nil_iff, verifiedDocs, List.filter_eq_nil_iff]
  push_neg
  simp [Bool.and_eq_true, beq_iff_eq]

theorem validationAt_parse {env : JsEnv} {detail : ClientCargoDetail}
    (hct : (env.parse detail.cargo.created_at).isSome = true)
    (hup : ∀ t ∈ uploadedTimes detail, (env.parse t).isSome = true) :
    (env.parse (validationAt env detail)).isSome = true := by
  rw [validationAt]
  cases hLU : latestUpload env detail with
  | some t =>
    apply hup
    rw [latestUpload] at hLU
    exact mem_sortDesc.mp (List.mem_of_mem_head? hLU)
  | none =>
    cases hEU : earliestUpload env detail with
    | some t =>
      simp only [Option.getD]
      apply hup
      rw [earliestUpload] at hEU
      exact mem_sortAsc.mp (List.mem_of_mem_head? hEU)
    | none => simpa [Option.getD] using hct

theorem validationAt_eq_latest {env : JsEnv} {detail : ClientCargoDetail}
    (h : uploadedTimes detail ≠ []) :
    validationAt env detail ∈ uploadedTimes detail ∧
    ∀ t ∈ uploadedTimes detail,
      parseKey env.parse t ≤ parseKey env.parse (validationAt env detail) := by
  obtain ⟨t, hh, hmem, hmax⟩ := sortDesc_head (parseKey env.parse) (uploadedTimes detail) h
  have hLU : latestUpload env detail = some t := hh
  rw [validationAt, hLU]
  exact ⟨hmem, hmax⟩

/-! ## Claim C2: validation / verified milestones -/

/-- Claim C2 (corrected): with one `UPLOADED` document whose upload
timestamp does not parse (and no `VERIFIED` document), the final timestamp
filter drops the "Validation in progress" entry, so the claimed
"if and only if" fails on the function's output. -/
theorem C2_counterexample :
    hasUploaded detailA = true ∧ hasAnyVerified detailA = false ∧
    (buildDerivedTimeline envA detailA []).filter
      (fun u => u.status == "Validation in progress") = [] := by decide

/-- Claim C2 (amended): when the creation timestamp and all retained
document timestamps parse, the derived timeline contains a
"Validation in progress" entry (incomplete, at
`latestUpload ?? earliestUpload ?? created_at`, which is the latest upload
timestamp whenever one exists) iff some document is `UPLOADED` and none is
`VERIFIED`, and contains a "Documents verified" entry (completed, at the
latest verification timestamp) iff some document is `VERIFIED` with a
truthy verification timestamp. -/
theorem C2_validation_verified (env : JsEnv) (detail : ClientCargoDetail)
    (approvals : List CargoApproval)
    (hct : (env.parse detail.cargo.created_at).isSome = true)
    (hup : ∀ t ∈ uploadedTimes detail, (env.parse t).isSome = true)
    (hver : ∀ t ∈ verifiedTimes detail, (env.parse t).isSome = true) :
    ((∃ e ∈ sortedDerivedEvents env detail approvals, e.label = "Validation in progress") ↔
      (hasUploaded detail = true ∧ hasAnyVerified detail = false)) ∧
    (∀ e ∈ sortedDerivedEvents env detail approvals, e.label = "Validation in progress" →
      e.completed = false ∧ e.at_ = validationAt env detail) ∧
    (uploadedTimes detail ≠ [] →
      validationAt env detail ∈ uploadedTimes detail ∧
      ∀ t ∈ uploadedTimes detail,
        parseKey env.parse t ≤ parseKey env.parse (validationAt env detail)) ∧
    ((∃ e ∈ sortedDerivedEvents env detail approvals, e.label = "Documents verified") ↔
      (∃ d ∈ detail.documents, d.status = "VERIFIED" ∧ truthyOpt d.verified_at = true)) ∧
    (∀ e ∈ sortedDerivedEvents env detail approvals, e.label = "Documents verified" →
      e.completed = true ∧ e.at_ ∈ verifiedTimes detail ∧
      ∀ t ∈ verifiedTimes detail, parseKey env.parse t ≤ parseKey env.parse e.at_) ∧
    ((∃ u ∈ buildDerivedTimeline env detail approvals, u.status = "Validation in progress") ↔
      (hasUploaded detail = true ∧ hasAnyVerified detail = false)) ∧
    ((∃ u ∈ buildDerivedTimeline env detail approvals, u.status = "Documents verified") ↔
      (∃ d ∈ detail.documents, d.status = "VERIFIED" ∧ truthyOpt d.verified_at = true)) := by
  have hval_iff : (∃ e ∈ sortedDerivedEvents env detail approvals,
      e.label = "Validation in progress") ↔
      (hasUploaded detail = true ∧ hasAnyVerified detail = false) := by
    constructor
    · rintro ⟨e, he, hlab⟩
      obtain ⟨hcand, -⟩ := mem_sortedDerivedEvents.mp he
      rcases mem_derivedCandidates.mp hcand with h | ⟨t, -, h⟩ | ⟨hcond, h⟩ | ⟨t, -, h⟩ | ⟨a, -, h⟩
      · rw [h, createdEvent_label] at hlab; exact absurd hlab (by decide)
      · rw [h, uploadedEventAt_label] at hlab; exact absurd hlab (by decide)
      · rcases Bool.and_eq_true .. |>.mp hcond with ⟨hU, hV⟩
        exact ⟨hU, by simpa using hV⟩
      · rw [h, verifiedEventAt_label] at hlab; exact absurd hlab (by decide)
      · rw [h] at hlab; exact absurd hlab (approvalEvent_label_ne env a).2.2.1
    · rintro ⟨hU, hV⟩
      have hcond : (hasUploaded detail && !hasAnyVerified detail) = true := by
        simp [hU, hV]
      refine ⟨validationEvent env detail, mem_sortedDerivedEvents.mpr ⟨?_, ?_⟩,
        validationEvent_label env detail⟩
      · exact mem_derivedCandidates.mpr (Or.inr (Or.inr (Or.inl ⟨hcond, rfl⟩)))
      · exact validationAt_parse hct hup
  have hval_fields : ∀ e ∈ sortedDerivedEvents env detail approvals,
      e.label = "Validation in progress" →
      e.completed = false ∧ e.at_ = validationAt env detail := by
    rintro e he hlab
    obtain ⟨hcand, -⟩ := mem_sortedDerivedEvents.mp he
    rcases mem_derivedCandidates.mp hcand with h | ⟨t, -, h⟩ | ⟨-, h⟩ | ⟨t, -, h⟩ | ⟨a, -, h⟩
    · rw [h, createdEvent_label] at hlab; exact absurd hlab (by decide)
    · rw [h, uploadedEventAt_label] at hlab; exact absurd hlab (by decide)
    · rw [h]; exact ⟨rfl, rfl⟩
    · rw [h, verifiedEventAt_label] at hlab; exact absurd hlab (by decide)
    · rw [h] at hlab; exact absurd hlab (approvalEvent_label_ne env a).2.2.1
  have hver_iff : (∃ e ∈ sortedDerivedEvents env detail approvals,
      e.label = "Documents verified") ↔
      (∃ d ∈ detail.documents, d.status = "VERIFIED" ∧ truthyOpt d.verified_at = true) := by
    constructor
    · rintro ⟨e, he, hlab⟩
      obtain ⟨hcand, -⟩ := mem_sortedDerivedEvents.mp he
      rcases mem_derivedCandidates.mp hcand with h | ⟨t, -, h⟩ | ⟨-, h⟩ | ⟨t, hLV, h⟩ | ⟨a, -, h⟩
      · rw [h, createdEvent_label] at hlab; exact absurd hlab (by decide)
      · rw [h, uploadedEventAt_label] at hlab; exact absurd hlab (by decide)
      · rw [h, validationEvent_label] at hlab; exact absurd hlab (by decide)
      · apply verifiedTimes_ne_nil_iff.mp
        intro hnil
        rw [latestVerified] at hLV
        rw [hnil] at hLV
        simp [sortDesc] at hLV
      · rw [h] at hlab; exact absurd hlab (approvalEvent_label_ne env a).2.2.2
    · intro hd
      have hne : verifiedTimes detail ≠ [] := verifiedTimes_ne_nil_iff.mpr hd
      obtain ⟨t, hh, hmem, -⟩ := sortDesc_head (parseKey env.parse) (verifiedTimes detail) hne
      have hLV : latestVerified env detail = some t := hh
      refine ⟨verifiedEventAt t, mem_sortedDerivedEvents.mpr ⟨?_, ?_⟩, verifiedEventAt_label t⟩
      · exact mem_derivedCandidates.mpr (Or.inr (Or.inr (Or.inr (Or.inl ⟨t, hLV, rfl⟩))))
      · exact hver t hmem
  have hver_fields : ∀ e ∈ sortedDerivedEvents env detail approvals,
      e.label = "Documents verified" →
      e.completed = true ∧ e.at_ ∈ verifiedTimes detail ∧
      ∀ t ∈ verifiedTimes detail, parseKey env.parse t ≤ parseKey env.parse e.at_ := by
    rintro e he hlab
    obtain ⟨hcand, -⟩ := mem_sortedDerivedEvents.mp he
    rcases mem_derivedCandidates.mp hcand with h | ⟨t, -, h⟩ | ⟨-, h⟩ | ⟨t, hLV, h⟩ | ⟨a, -, h⟩
    · rw [h, createdEvent_label] at hlab; exact absurd hlab (by decide)
    · rw [h, uploadedEventAt_label] at hlab; exact absurd hlab (by decide)
    · rw [h, validationEvent_label] at hlab; exact absurd hlab (by decide)
    · have hne : verifiedTimes detail ≠ [] := by
        intro hnil
        rw [latestVerified] at hLV
        rw [hnil] at hLV
        simp [sortDesc] at hLV
      obtain ⟨t', hh, hmem, hmax⟩ := sortDesc_head (parseKey env.parse) (verifiedTimes detail) hne
      have hLV' : latestVerified env detail = some t' := hh
      have ht : t = t' := by
        rw [hLV] at hLV'
        exact Option.some.inj hLV'
      subst ht
      rw [h]
      exact ⟨rfl, hmem, hmax⟩
    · rw [h] at hlab; exact absurd hlab (approvalEvent_label_ne env a).2.2.2
  refine ⟨hval_iff, hval_fields, fun h => validationAt_eq_latest h, hver_iff, hver_fields, ?_, ?_⟩
  · exact buildStatus_iff.trans hval_iff
  · exact buildStatus_iff.trans hver_iff

/-- Witness for C2: under `envW`, `detailW` has an uploaded, unverified
document with a parseable timestamp; the amended theorem applies to it. -/
theorem C2_validation_verified_witness :
    (∃ e ∈ sortedDerivedEvents envW detailW [], e.label = "Validation in progress") ↔
      (hasUploaded detailW = true ∧ hasAnyVerified detailW = false) :=
  (C2_validation_verified envW detailW [] (by decide) (by decide) (by decide)).1

/-! ## Claim C7: the "Cargo created" entry -/

/-- Claim C7 (corrected): when the cargo's creation timestamp does not
parse, the final timestamp filter drops the "Cargo created" candidate and
the derived timeline is empty, so the entry is not always present. -/
theorem C7_counterexample :
    buildDerivedTimeline envNone detailGarbage [] = [] := by decide

/-- Claim C7 (amended): whenever the cargo's creation timestamp parses, the
derived timeline contains a "Cargo created" entry at that timestamp,
marked completed. -/
theorem C7_cargo_created (env : JsEnv) (detail : ClientCargoDetail)
    (approvals : List CargoApproval)
    (hct : (env.parse detail.cargo.created_at).isSome = true) :
    (∃ e ∈ sortedDerivedEvents env detail approvals,
      e.label = "Cargo created" ∧ e.at_ = detail.cargo.created_at ∧ e.completed = true) ∧
    (∃ u ∈ buildDerivedTimeline env detail approvals,
      u.status = "Cargo created" ∧ u.completed = true) := by
  have hmem : createdEvent detail ∈ sortedDerivedEvents env detail approvals :=
    mem_sortedDerivedEvents.mpr ⟨mem_derivedCandidates.mpr (Or.inl rfl), hct⟩
  refine ⟨⟨createdEvent detail, hmem, rfl, rfl, rfl⟩,
    ⟨displayEvent env (createdEvent detail),
      mem_buildDerivedTimeline.mpr ⟨createdEvent detail, hmem, rfl⟩, rfl, rfl⟩⟩

/-- Witness for C7: the creation timestamp of `detailW` parses under `envW`. -/
theorem C7_cargo_created_witness :
    (∃ e ∈ sortedDerivedEvents envW detailW [],
      e.label = "Cargo created" ∧ e.at_ = detailW.cargo.created_at ∧ e.completed = true) ∧
    (∃ u ∈ buildDerivedTimeline envW detailW [],
      u.status = "Cargo created" ∧ u.completed = true) :=
  C7_cargo_created envW detailW [] (by decide)

/-! ## Claim C8: the "Documents uploaded" entry -/

/-- Claim C8 (corrected): a document that merely has an upload timestamp
(here a `VERIFIED` one) does not produce a "Documents uploaded" entry; the
code requires status `UPLOADED`. -/
theorem C8_counterexample :
    detailB.documents.any (fun d => truthyOpt d.uploaded_at) = true ∧
    (buildDerivedTimeline envB detailB []).filter
      (fun u => u.status == "Documents uploaded") = [] := by decide

/-- Claim C8 (amended): with "uploaded document" read as a document whose
status is `UPLOADED` and whose upload timestamp is truthy, and assuming
those upload timestamps parse, the derived timeline contains a
"Documents uploaded" entry iff such a document exists, and any such entry
is completed and sits at the earliest upload timestamp. -/
theorem C8_documents_uploaded (env : JsEnv) (detail : ClientCargoDetail)
    (approvals : List CargoApproval)
    (hup : ∀ t ∈ uploadedTimes detail, (env.parse t).isSome = true) :
    ((∃ e ∈ sortedDerivedEvents env detail approvals, e.label = "Documents uploaded") ↔
      (∃ d ∈ detail.documents, d.status = "UPLOADED" ∧ truthyOpt d.uploaded_at = true)) ∧
    (∀ e ∈ sortedDerivedEvents env detail approvals, e.label = "Documents uploaded" →
      e.completed = true ∧ e.at_ ∈ uploadedTimes detail ∧
      ∀ t ∈ uploadedTimes detail, parseKey env.parse e.at_ ≤ parseKey env.parse t) ∧
    ((∃ u ∈ buildDerivedTimeline env detail approvals, u.status = "Documents uploaded") ↔
      (∃ d ∈ detail.documents, d.status = "UPLOADED" ∧ truthyOpt d.uploaded_at = true)) := by
  have hup_iff : (∃ e ∈ sortedDerivedEvents env detail approvals,
      e.label = "Documents uploaded") ↔
      (∃ d ∈ detail.documents, d.status = "UPLOADED" ∧ truthyOpt d.uploaded_at = true) := by
    constructor
    · rintro ⟨e, he, hlab⟩
      obtain ⟨hcand, -⟩ := mem_sortedDerivedEvents.mp he
      rcases mem_derivedCandidates.mp hcand with h | ⟨t, hEU, h⟩ | ⟨-, h⟩ | ⟨t, -, h⟩ | ⟨a, -, h⟩
      · rw [h, createdEvent_label] at hlab; exact absurd hlab (by decide)
      · apply uploadedTimes_ne_nil_iff.mp
        intro hnil
        rw [earliestUpload] at hEU
        rw [hnil] at hEU
        simp [sortAsc] at hEU
      · rw [h, validationEvent_label] at hlab; exact absurd hlab (by decide)
      · rw [h, verifiedEventAt_label] at hlab; exact absurd hlab (by decide)
      · rw [h] at hlab; exact absurd hlab (approvalEvent_label_ne env a).2.1
    · intro hd
      have hne : uploadedTimes detail ≠ [] := uploadedTimes_ne_nil_iff.mpr hd
      obtain ⟨t, hh, hmem, -⟩ := sortAsc_head (parseKey env.parse) (uploadedTimes detail) hne
      have hEU : earliestUpload env detail = some t := hh
      refine ⟨uploadedEventAt t, mem_sortedDerivedEvents.mpr ⟨?_, ?_⟩, uploadedEventAt_label t⟩
      · exact mem_derivedCandidates.mpr (Or.inr (Or.inl ⟨t, hEU, rfl⟩))
      · exact hup t hmem
  have hup_fields : ∀ e ∈ sortedDerivedEvents env detail approvals,
      e.label = "Documents uploaded" →
      e.completed = true ∧ e.at_ ∈ uploadedTimes detail ∧
      ∀ t ∈ uploadedTimes detail, parseKey env.parse e.at_ ≤ parseKey env.parse t := by
    rintro e he hlab
    obtain ⟨hcand, -⟩ := mem_sortedDerivedEvents.mp he
    rcases mem_derivedCandidates.mp hcand with h | ⟨t, hEU, h⟩ | ⟨-, h⟩ | ⟨t, -, h⟩ | ⟨a, -, h⟩
    · rw [h, createdEvent_label] at hlab; exact absurd hlab (by decide)
    · have hne : uploadedTimes detail ≠ [] := by
        intro hnil
        rw [earliestUpload] at hEU
        rw [hnil] at hEU
        simp [sortAsc] at hEU
      obtain ⟨t', hh, hmem, hmin⟩ := sortAsc_head (parseKey env.parse) (uploadedTimes detail) hne
      have hEU' : earliestUpload env detail = some t' := hh
      have ht : t = t' := by
        rw [hEU] at hEU'
        exact Option.some.inj hEU'
      subst ht
      rw [h]
      exact ⟨rfl, hmem, hmin⟩
    · rw [h, validationEvent_label] at hlab; exact absurd hlab (by decide)
    · rw [h, verifiedEventAt_label] at hlab; exact absurd hlab (by decide)
    · rw [h] at hlab; exact absurd hlab (approvalEvent_label_ne env a).2.1
  exact ⟨hup_iff, hup_fields, buildStatus_iff.trans hup_iff⟩

/-- Witness for C8: `detailW` has an `UPLOADED` document with a parseable
upload timestamp under `envW`. -/
theorem C8_documents_uploaded_witness :
    (∃ e ∈ sortedDerivedEvents envW detailW [], e.label = "Documents uploaded") ↔
      (∃ d ∈ detailW.documents, d.status = "UPLOADED" ∧ truthyOpt d.uploaded_at = true) :=
  (C8_documents_uploaded envW detailW [] (by decide)).1

/-! ## Claim C6: dropping unparseable timestamps and stable chronological sort -/

/-- Claim C6 (confirmed): the derived timeline retains exactly the
candidates whose timestamp parses, orders them ascending by parsed
timestamp, keeps candidates with equal timestamps in their original
(push) order — the filtered output restricted to any fixed key equals the
filtered candidate list restricted to that key — and displays the result. -/
theorem C6_filter_sort (env : JsEnv) (detail : ClientCargoDetail)
    (approvals : List CargoApproval) :
    (sortedDerivedEvents env detail approvals).Perm
      (filteredCandidates env detail approvals) ∧
    (∀ e, e ∈ sortedDerivedEvents env detail approvals ↔
      e ∈ derivedCandidates env detail approvals ∧ (env.parse e.at_).isSome = true) ∧
    (sortedDerivedEvents env detail approvals).Pairwise
      (fun a b => timelineKey env a ≤ timelineKey env b) ∧
    (∀ k : Int,
      (sortedDerivedEvents env detail approvals).filter (fun e => timelineKey env e == k)
        = (filteredCandidates env detail approvals).filter (fun e => timelineKey env e == k)) ∧
    buildDerivedTimeline env detail approvals
      = (sortedDerivedEvents env detail approvals).map (displayEvent env) :=
  ⟨sortAsc_perm _ _, fun _ => mem_sortedDerivedEvents, sortAsc_pairwise _ _,
    fun k => sortAsc_filter_key _ _ k, rfl⟩

/-- Witness for C6: instantiated at the concrete `envW`/`detailW` input. -/
theorem C6_filter_sort_witness :
    (sortedDerivedEvents envW detailW []).Perm (filteredCandidates envW detailW []) :=
  (C6_filter_sort envW detailW []).1

/-! ## Claim C3: the SLA hint -/

theorem computeSlaHint_eq {env : JsEnv} {now : Int} {s : String} {t : Int}
    (hs : ¬ s = "") (hp : env.parse s = some t) :
    computeSlaHint env now (some s) =
      some { label := "SLA: "
               ++ (if decide (0 ≤ t - now ∧ t - now ≤ 24 * 3600000) then "At Risk" else "On Track")
               ++ " ("
               ++ (if 2 ≤ (t - now).natAbs / 86400000 then
                     toString ((t - now).natAbs / 86400000) ++ " days "
                       ++ (if 0 ≤ t - now then "remaining" else "overdue")
                   else
                     toString ((2 * (t - now).natAbs + 3600000) / 7200000) ++ " hours "
                       ++ (if 0 ≤ t - now then "remaining" else "overdue"))
               ++ ")",
             tone := if decide (0 ≤ t - now ∧ t - now ≤ 24 * 3600000) then SlaTone.risk
                     else SlaTone.ok } := by
  simp only [computeSlaHint]
  rw [if_neg hs, hp]

/-- Claim C3 (confirmed): `computeSlaHint` yields nothing exactly when the
ETA is absent or unparseable; otherwise the tone is `risk` iff the
remaining time lies in `[0, 24h]` (an overdue ETA gives `ok`), and the
duration text shows whole days when the absolute remaining time is at
least two days and rounded hours otherwise. -/
theorem C3_sla_hint (env : JsEnv) (now : Int) (eta : Option String)
    (hempty : env.parse "" = none) :
    (computeSlaHint env now eta = none ↔ ∀ s, eta = some s → env.parse s = none) ∧
    (∀ s t, eta = some s → env.parse s = some t →
      ∃ h, computeSlaHint env now eta = some h ∧
        (h.tone = SlaTone.risk ↔ (0 ≤ t - now ∧ t - now ≤ 24 * 3600000)) ∧
        (2 * 86400000 ≤ (t - now).natAbs →
          hasSubstr (toString ((t - now).natAbs / 86400000) ++ " days") h.label = true) ∧
        ((t - now).natAbs < 2 * 86400000 →
          hasSubstr (toString ((2 * (t - now).natAbs + 3600000) / 7200000) ++ " hours")
            h.label = true)) := by
  constructor
  · cases eta with
    | none => simp [computeSlaHint]
    | some s =>
      by_cases hs : s = ""
      · subst hs
        simp [computeSlaHint, hempty]
      · cases hp : env.parse s with
        | none => simp [computeSlaHint, hs, hp]
        | some t =>
          rw [computeSlaHint_eq hs hp]
          simp [hp]
  · rintro s t rfl hp
    have hs : ¬ s = "" := by
      intro h
      rw [h, hempty] at hp
      cases hp
    refine ⟨_, computeSlaHint_eq hs hp, ?_, ?_, ?_⟩
    · by_cases hr : (0 ≤ t - now ∧ t - now ≤ 24 * 3600000)
      · simp [hr]
      · simp [hr]
    · intro hdays
      have h2 : 2 ≤ (t - now).natAbs / 86400000 :=
        (Nat.le_div_iff_mul_le (by norm_num)).mpr hdays
      rw [if_pos h2]
      apply hasSubstr_of_parts
        (("SLA: " ++ (if decide (0 ≤ t - now ∧ t - now ≤ 24 * 3600000)
          then "At Risk" else "On Track") ++ " (").data)
        ((" " ++ (if 0 ≤ t - now then "remaining" else "overdue") ++ ")").data)
      simp only [String.data_append, List.append_assoc]
      rfl
    · intro hhours
      have h2 : ¬ 2 ≤ (t - now).natAbs / 86400000 := by
        intro hcon
        exact absurd ((Nat.le_div_iff_mul_le (by norm_num)).mp hcon) (by omega)
      rw [if_neg h2]
      apply hasSubstr_of_parts
        (("SLA: " ++ (if decide (0 ≤ t - now ∧ t - now ≤ 24 * 3600000)
          then "At Risk" else "On Track") ++ " (").data)
        ((" " ++ (if 0 ≤ t - now then "remaining" else "overdue") ++ ")").data)
      simp only [String.data_append, List.append_assoc]
      rfl

/-- Witness for C3: ETA three days ahead of `now = 0` under `envSla`. -/
theorem C3_sla_hint_witness :
    ∃ h, computeSlaHint envSla 0 (some "E3") = some h ∧
      (h.tone = SlaTone.risk ↔
        (0 ≤ (259200000 : Int) - 0 ∧ (259200000 : Int) - 0 ≤ 24 * 3600000)) ∧
      (2 * 86400000 ≤ ((259200000 : Int) - 0).natAbs →
        hasSubstr (toString (((259200000 : Int) - 0).natAbs / 86400000) ++ " days")
          h.label = true) ∧
      (((259200000 : Int) - 0).natAbs < 2 * 86400000 →
        hasSubstr (toString ((2 * ((259200000 : Int) - 0).natAbs + 3600000) / 7200000) ++ " hours")
          h.label = true) :=
  (C3_sla_hint envSla 0 (some "E3") (by decide)).2 "E3" 259200000 rfl (by decide)

/-! ## Claim C4: 401/403 handling in the HTTP wrapper -/

/-- Claim C4 (corrected): for a path containing `timeout`, the catch block
re-matches the wrapper's own 401 error message (`GET /timeouts failed: 401`
contains `timeout`) and redirects a second time, so the redirect does not
happen exactly once for every call. -/
theorem C4_counterexample :
    resp401.status = 401 ∧
    (fetchJson "GET" "/timeouts" resp401).redirects = 2 := by decide

/-- Claim C4 (amended): provided the composed error message (method, path
and status — and, for non-auth failures, the response body) does not
contain `timeout`, `aborted` or `AbortError`, a 401/403 response triggers
the login redirect exactly once and the call rejects with an error naming
the method, path and status, while any other non-2xx response rejects
without redirecting. -/
theorem C4_fetch {α : Type} (method path : String) (resp : HttpResponse α) :
    ((resp.status = 401 ∨ resp.status = 403) →
      msgTriggersRelogin (errText method path resp.status) = false →
      (fetchJson method path resp).redirects = 1 ∧
      (fetchJson method path resp).result = Except.error (errText method path resp.status) ∧
      hasSubstr method (errText method path resp.status) = true ∧
      hasSubstr path (errText method path resp.status) = true ∧
      hasSubstr (toString resp.status) (errText method path resp.status) = true) ∧
    (¬ (resp.status = 401 ∨ resp.status = 403) → respOk resp.status = false →
      msgTriggersRelogin (errText method path resp.status ++ " " ++ resp.body) = false →
      (fetchJson method path resp).redirects = 0 ∧
      (fetchJson method path resp).result
        = Except.error (errText method path resp.status ++ " " ++ resp.body)) := by
  constructor
  · intro hst htrig
    have hfj : fetchJson method path resp =
        { result := Except.error (errText method path resp.status),
          redirects := 1 + (if msgTriggersRelogin (errText method path resp.status)
            then 1 else 0) } := by
      unfold fetchJson
      rw [if_pos hst]
    refine ⟨?_, ?_, ?_, ?_, ?_⟩
    · rw [hfj]; simp [htrig]
    · rw [hfj]
    · apply hasSubstr_of_parts []
        ((" " ++ path ++ " failed: " ++ toString resp.status).data)
      simp [errText, String.data_append, List.append_assoc]
    · apply hasSubstr_of_parts ((method ++ " ").data)
        ((" failed: " ++ toString resp.status).data)
      simp [errText, String.data_append, List.append_assoc]
    · apply hasSubstr_of_parts ((method ++ " " ++ path ++ " failed: ").data) []
      simp [errText, String.data_append, List.append_assoc]
  · intro hst hok htrig
    have hfj : fetchJson method path resp =
        { result := Except.error (errText method path resp.status ++ " " ++ resp.body),
          redirects := 0 + (if msgTriggersRelogin
            (errText method path resp.status ++ " " ++ resp.body) then 1 else 0) } := by
      unfold fetchJson
      rw [if_neg hst, if_pos hok]
    refine ⟨?_, ?_⟩
    · rw [hfj]; simp [htrig]
    · rw [hfj]

/-- Witness for C4: a 401 on the real shipments path redirects exactly once
and rejects with `GET /client/shipments failed: 401`. -/
theorem C4_fetch_witness :
    (fetchJson "GET" "/client/shipments" resp401).redirects = 1 ∧
    (fetchJson "GET" "/client/shipments" resp401).result
      = Except.error (errText "GET" "/client/shipments" resp401.status) ∧
    hasSubstr "GET" (errText "GET" "/client/shipments" resp401.status) = true ∧
    hasSubstr "/client/shipments" (errText "GET" "/client/shipments" resp401.status) = true ∧
    hasSubstr (toString resp401.status) (errText "GET" "/client/shipments" resp401.status) = true :=
  (C4_fetch "GET" "/client/shipments" resp401).1 (Or.inl rfl) (by decide)

/-! ## Claim C5: insertClientDocument round-trip -/

/-- Claim C5 (confirmed): the request body carries exactly the snake_case
keys `cargo_id`/`document_type`/`drive_url` with the camelCase input's
values, the call rejects whenever the response JSON lacks an `id` (a `null`
body or an object without the field), and it returns `{ id }` only when
the field is present. -/
theorem C5_insert (input : InsertClientDocumentInput) (resp : InsertDocResponse) :
    (insertClientDocument input resp).1
      = [("cargo_id", input.cargoId), ("document_type", input.documentType),
         ("drive_url", input.driveUrl)] ∧
    (insertClientDocument input resp).1.map Prod.fst
      = ["cargo_id", "document_type", "drive_url"] ∧
    ((resp.json = none ∨ resp.json = some none) →
      ∃ m, (insertClientDocument input resp).2 = Except.error m) ∧
    (∀ docId, (insertClientDocument input resp).2 = Except.ok docId →
      resp.json = some (some docId)) := by
  refine ⟨rfl, rfl, ?_, ?_⟩
  · rintro (hj | hj) <;> cases hok : respOk resp.status
    · exact ⟨"insertClientDocument failed: " ++ toString resp.status ++ " " ++ resp.body,
        by simp [insertClientDocument, hok, hj]⟩
    · exact ⟨"insertClientDocument: missing id", by simp [insertClientDocument, hok, hj]⟩
    · exact ⟨"insertClientDocument failed: " ++ toString resp.status ++ " " ++ resp.body,
        by simp [insertClientDocument, hok, hj]⟩
    · exact ⟨"insertClientDocument: missing id", by simp [insertClientDocument, hok, hj]⟩
  · intro docId hid
    simp only [insertClientDocument] at hid
    split at hid
    · cases hid
    · split at hid
      · cases hid
      · cases hid
      · rename_i s heq
        split at hid
        · cases hid
        · cases hid
          exact heq

/-- Witness for C5: a 2xx response whose object lacks `id` makes the call
reject. -/
theorem C5_insert_witness :
    ∃ m, (insertClientDocument inputC5 respNoId).2 = Except.error m :=
  (C5_insert inputC5 respNoId).2.2.1 (Or.inr rfl)

/-! ## Claim C9: the two-phase upload helper -/

/-- Claim C9 (confirmed): after a successful signed-URL request, the helper
PUTs the file to the signed URL with the file's content type (defaulting to
`application/octet-stream`), rejects exactly when the PUT is non-2xx — with
an error carrying the status and body — and on success returns the
backend-issued storage object path. -/
theorem C9_upload (args : UploadArgs) (createResp : ApiResponse CreateUploadUrlResult)
    (putResp : PutResponse) (hok : respOk createResp.status = true) :
    (uploadClientDocumentFile args createResp putResp).1
      = some { url := createResp.json.signed_url, method := "PUT",
               contentType := if args.file.type = "" then "application/octet-stream"
                 else args.file.type,
               file := args.file } ∧
    ((∃ m, (uploadClientDocumentFile args createResp putResp).2 = Except.error m) ↔
      respOk putResp.status = false) ∧
    (respOk putResp.status = false →
      ∃ m, (uploadClientDocumentFile args createResp putResp).2 = Except.error m ∧
        hasSubstr (toString putResp.status) m = true ∧
        hasSubstr putResp.body m = true) ∧
    (respOk putResp.status = true →
      (uploadClientDocumentFile args createResp putResp).2
        = Except.ok createResp.json.path) := by
  have hcreate : createClientDocumentUploadUrl createResp = Except.ok createResp.json := by
    rw [createClientDocumentUploadUrl, if_neg (by simp [hok])]
  refine ⟨?_, ?_, ?_, ?_⟩
  · cases hput : respOk putResp.status <;>
      simp [uploadClientDocumentFile, hcreate, hput, uploadPutRequest]
  · constructor
    · rintro ⟨m, hm⟩
      cases hput : respOk putResp.status
      · rfl
      · simp [uploadClientDocumentFile, hcreate, hput] at hm
    · intro hput
      exact ⟨"Signed upload failed: " ++ toString putResp.status ++ " " ++ putResp.body,
        by simp [uploadClientDocumentFile, hcreate, hput]⟩
  · intro hput
    refine ⟨"Signed upload failed: " ++ toString putResp.status ++ " " ++ putResp.body,
      by simp [uploadClientDocumentFile, hcreate, hput], ?_, ?_⟩
    · apply hasSubstr_of_parts (("Signed upload failed: " : String).data)
        ((" " ++ putResp.body).data)
      simp [String.data_append, List.append_assoc]
    · apply hasSubstr_of_parts
        (("Signed upload failed: " ++ toString putResp.status ++ " ").data) []
      simp [String.data_append, List.append_assoc]
  · intro hput
    simp [uploadClientDocumentFile, hcreate, hput]

/-- Witness for C9: with a typeless file and a denied PUT, the issued
request uses the signed URL and the octet-stream default. -/
theorem C9_upload_witness :
    (uploadClientDocumentFile argsC9 createRespC9 putRespFail).1
      = some { url := createRespC9.json.signed_url, method := "PUT",
               contentType := if argsC9.file.type = "" then "application/octet-stream"
                 else argsC9.file.type,
               file := argsC9.file } :=
  (C9_upload argsC9 createRespC9 putRespFail (by decide)).1

/-! ## Claim C10: missing list fields coalesce to empty lists -/

/-- Claim C10 (confirmed): on a 2xx response whose JSON body is `null` or
lacks the expected `shipments`/`approvals` field, the list fetchers resolve
with an empty list. -/
theorem C10_empty_lists (r1 : ApiResponse (Option (Option (List ClientShipmentRow))))
    (r2 : ApiResponse (Option (Option (List CargoApproval))))
    (h1 : respOk r1.status = true) (h2 : respOk r2.status = true)
    (hj1 : r1.json = none ∨ r1.json = some none)
    (hj2 : r2.json = none ∨ r2.json = some none) :
    getClientShipments r1 = Except.ok [] ∧ getClientCargoApprovals r2 = Except.ok [] := by
  constructor
  · rcases hj1 with h | h <;> simp [getClientShipments, h1, h]
  · rcases hj2 with h | h <;> simp [getClientCargoApprovals, h2, h]

/-- Witness for C10: a `null` shipments body and an approvals object
without the field both yield `ok []`. -/
theorem C10_empty_lists_witness :
    getClientShipments shipRespNull = Except.ok [] ∧
    getClientCargoApprovals apprRespNoField = Except.ok [] :=
  C10_empty_lists shipRespNull apprRespNoField (by decide) (by decide)
    (Or.inl rfl) (Or.inr rfl)

end Dash
